import Mathlib

/-!
# Verification of the tlang node-registry generation pipeline

A shallow embedding of `scripts/generate-registry.js`: the script parses the
tlang root export manifest (`index.ts`), parses each re-exported namespace
file, recognizes `*Node` interfaces, extracts input/output port lists from
their type members, classifies port types, and serializes a keyed registry.

Source files are modelled at the level of the TypeScript AST facts the script
inspects (statement kinds, names, JSDoc comment text, member type nodes and
their source text); file reads are modelled as lookups in an explicit
`FileSystem`, and `readFileSync`/`writeFileSync` failure/atomicity as an
`Except` pipeline whose `ok` payload is the written artifact.
-/

namespace TlangRegistry

/-! ## String helpers mirroring the JavaScript primitives used by the script -/

/-- Prefix test on character lists (`leadsWith pat l` ⟺ `pat` begins `l`). -/
def leadsWith : List Char → List Char → Bool
  | [], _ => true
  | _ :: _, [] => false
  | p :: ps, c :: cs => p == c && leadsWith ps cs

/-- Does `pat` occur as a contiguous run anywhere in `l`? -/
def charsContain (pat : List Char) : List Char → Bool
  | [] => leadsWith pat []
  | c :: cs => leadsWith pat (c :: cs) || charsContain pat cs

/-- JS `String.prototype.includes`: substring containment. -/
def includes (s pat : String) : Bool := charsContain pat.data s.data

/-- JS `\w` character class: `[A-Za-z0-9_]`. -/
def isWordChar (c : Char) : Bool := c.isAlphanum || c == '_'

/-- JS `\s` character class, restricted to the ASCII whitespace that occurs in
TypeScript source text. -/
def jsSpace (c : Char) : Bool :=
  c == ' ' || c == '\t' || c == '\n' || c == '\r' || c == '\x0b' || c == '\x0c'

/-- JS `String.prototype.startsWith`. -/
def strStartsWith (s pre : String) : Bool := leadsWith pre.data s.data

/-- JS `String.prototype.endsWith`. -/
def strEndsWith (s post : String) : Bool := leadsWith post.data.reverse s.data.reverse

/-- JS `str.charAt(0).toUpperCase() + str.slice(1)` (`capitalize`, line 234). -/
def capitalize (s : String) : String :=
  match s.data with
  | [] => ""
  | c :: cs => String.mk (c.toUpper :: cs)

/-- JS `interfaceName.replace(/Node$/, '')`: strip one trailing `Node`. -/
def stripNodeSuffix (s : String) : String :=
  if strEndsWith s "Node" then String.mk (s.data.take (s.data.length - 4)) else s

/-- JS `String.prototype.trim`: drop leading and trailing whitespace. -/
def jsTrim (s : String) : String :=
  String.mk (((s.data.dropWhile jsSpace).reverse.dropWhile jsSpace).reverse)

/-- JS `description.split('\n')[0]`: the prefix before the first newline. -/
def firstLine (s : String) : String :=
  String.mk (s.data.takeWhile (fun c => c != '\n'))

/-- JS `description.split('\n')[0].trim()` (line 156). -/
def firstLineTrimmed (s : String) : String :=
  jsTrim (firstLine s)

/-- JS `Map.prototype.set`: update in place if the key exists (keeping its
insertion position), otherwise append. -/
def mapSet (m : List (String × String)) (k v : String) : List (String × String) :=
  if m.any (fun p => p.1 == k) then
    m.map (fun p => if p.1 == k then (k, v) else p)
  else m ++ [(k, v)]

/-- JS `Set.prototype.add`: append if absent (insertion-ordered set). -/
def setAdd (s : List String) (x : String) : List String :=
  if s.contains x then s else s ++ [x]

/-! ## The type classifier (`simplifyType`, lines 222-229) -/

/-- `simplifyType`: ordered substring checks over the raw type text, first
matching rule wins, defaulting to `any`. -/
def simplifyType (typeText : String) : String :=
  if includes typeText "number" then "number"
  else if includes typeText "string" then "string"
  else if includes typeText "boolean" then "boolean"
  else if includes typeText "[]" || includes typeText "Array" then "array"
  else if includes typeText "\x7b" || includes typeText "Record" || includes typeText "object" then "object"
  else "any"

/-! ## Data model for ports and type expressions -/

/-- One extracted port (`ports.push({...})`, lines 179-184 and 205-210). -/
structure Port where
  id : String
  label : String
  type : String
  required : Bool
deriving Repr, DecidableEq

/-- A member of a type-literal node, as far as `extractPorts` inspects it:
a property signature carries its name text and (optionally) its declared
type's source text. -/
inductive TypeMember where
  | propertySignature (name : String) (typeText : Option String)
  | otherMember
deriving Repr, DecidableEq

/-- A type expression, at the granularity `extractPorts` dispatches on:
a type literal, a conditional type (whose check/extends parts the script
never reads), or any other shape, carried as its source text. -/
inductive TypeNode where
  | typeLiteral (members : List TypeMember)
  | conditionalType (checkText extendsText : String) (trueType falseType : TypeNode)
  | otherType (text : String)
deriving Repr, DecidableEq

/-- The `portType` argument of `extractPorts` (`'input'` / `'output'`). -/
inductive Role where
  | input
  | output
deriving Repr, DecidableEq, BEq

/-! ## Tier-3 regex heuristics

`extractPorts`'s fallback branch applies `typeText.match(/\?\s*\x7b([^\x7d]+)\x7d/s)`
and then `objectContent.matchAll(/(\w+)\s*:/g)`.  Both regexes are
deterministic (the quantified classes are disjoint from the following literal
characters, so backtracking never produces a different match), and are
modelled by direct scanning functions over the character list. -/

/-- Attempt the pattern `\?\s*\x7b([^\x7d]+)\x7d` anchored at the head of the
list; on success return the capture group (the run between the braces). -/
def matchQuestionBrace : List Char → Option (List Char)
  | '?' :: rest =>
    match rest.dropWhile jsSpace with
    | '\x7b' :: body =>
      let content := body.takeWhile (fun c => c != '\x7d')
      if content.isEmpty then none
      else
        match body.dropWhile (fun c => c != '\x7d') with
        | '\x7d' :: _ => some content
        | _ => none
    | _ => none
  | _ => none

/-- First match of `\?\s*\x7b([^\x7d]+)\x7d` in the list (leftmost start). -/
def findQuestionBrace : List Char → Option (List Char)
  | [] => none
  | c :: rest =>
    match matchQuestionBrace (c :: rest) with
    | some content => some content
    | none => findQuestionBrace rest

/-- Worker for `findProps`, structurally recursive on a fuel argument so that
it evaluates by kernel reduction; every step consumes at least one character,
so `l.length` fuel always suffices. -/
def findPropsGo : Nat → List Char → List (List Char)
  | 0, _ => []
  | _ + 1, [] => []
  | fuel + 1, c :: cs =>
    if isWordChar c then
      match (List.dropWhile isWordChar (c :: cs)).dropWhile jsSpace with
      | ':' :: r => List.takeWhile isWordChar (c :: cs) :: findPropsGo fuel r
      | _ => findPropsGo fuel (List.dropWhile isWordChar (c :: cs))
    else
      findPropsGo fuel cs

/-- All matches of `(\w+)\s*:` (the captured word of each), scanning left to
right as `matchAll` does.  A match can only start at the head of a maximal
word run (a later start inside the run meets the same non-colon suffix), so
scanning jumps run-by-run. -/
def findProps (l : List Char) : List (List Char) :=
  findPropsGo l.length l

/-! ## Port extraction (`extractPorts`, lines 169-217) -/

/-- `extractPorts`: tier 1 (type literal) iterates property signatures; tier 2
(conditional type) recurses into the true branch; tier 3 (anything else)
applies the text heuristics above, dropping `readonly` pseudo-properties. -/
def extractPorts (typeNode : TypeNode) (portType : Role) : List Port :=
  match typeNode with
  | TypeNode.typeLiteral members =>
    members.filterMap fun m =>
      match m with
      | TypeMember.propertySignature portId typeText =>
        some { id := portId,
               label := capitalize portId,
               type := simplifyType (typeText.getD "unknown"),
               required := portType == Role.input }
      | TypeMember.otherMember => none
  | TypeNode.conditionalType _ _ trueType _ => extractPorts trueType portType
  | TypeNode.otherType text =>
    match findQuestionBrace text.data with
    | some objectContent =>
      (findProps objectContent).filterMap fun w =>
        let portId := String.mk w
        if portId != "" && portId != "readonly" then
          some { id := portId,
                 label := capitalize portId,
                 type := "any",
                 required := portType == Role.input }
        else none
    | none => []

/-! ## Namespace source files (`parseNodeFile`, lines 86-164) -/

/-- An interface member, as far as `parseNodeFile` inspects it: a property
signature carries its name text and (optionally) its declared type node. -/
inductive IfaceMember where
  | propertySignature (name : String) (type : Option TypeNode)
  | otherIface
deriving Repr, DecidableEq

/-- A top-level statement of a namespace source file, at the granularity the
script inspects: exported/non-exported type aliases (name and referenced type
text), interface declarations (name, first JSDoc comment text if any, and
members), and everything else. -/
inductive NsStatement where
  | typeAlias (exported : Bool) (name : String) (typeText : String)
  | interfaceDecl (name : String) (jsDocComment : Option String) (members : List IfaceMember)
  | otherNs
deriving Repr, DecidableEq

/-- One parsed node definition (`nodes.push({...})`, lines 153-159). -/
structure NodeDef where
  name : String
  interfaceName : String
  description : String
  inputs : List Port
  outputs : List Port
deriving Repr, DecidableEq

/-- The alias table of `parseNodeFile` (lines 98-109): exported type aliases
whose referenced text ends with `Node` or contains `Node<`, in insertion
order with `Map.set` update semantics. -/
def buildTypeExports (stmts : List NsStatement) : List (String × String) :=
  stmts.foldl
    (fun acc s =>
      match s with
      | NsStatement.typeAlias exported name typeText =>
        if exported && (strEndsWith typeText "Node" || includes typeText "Node<") then
          mapSet acc name typeText
        else acc
      | _ => acc)
    []

/-- The export-name loop of `parseNodeFile` (lines 144-151): starting from the
stripped interface name, scan the alias table and break at the first alias
whose referenced text is the interface name itself or a generic instantiation
of it. -/
def resolveExportName (typeExports : List (String × String)) (interfaceName : String) : String :=
  match typeExports with
  | [] => stripNodeSuffix interfaceName
  | (expName, expType) :: rest =>
    if expType == interfaceName || strStartsWith expType (interfaceName ++ "<") then expName
    else resolveExportName rest interfaceName

/-- One step of the member loop of `parseNodeFile` (lines 132-142): a
property signature named `inputs`/`outputs` that has a declared type
replaces the corresponding port list. -/
def portsStep (acc : List Port × List Port) (m : IfaceMember) : List Port × List Port :=
  match m with
  | IfaceMember.propertySignature memberName (some t) =>
    if memberName == "inputs" then (extractPorts t Role.input, acc.2)
    else if memberName == "outputs" then (acc.1, extractPorts t Role.output)
    else acc
  | _ => acc

/-- The member loop of `parseNodeFile` (lines 132-142), starting from two
empty port lists. -/
def portsOfMembers (members : List IfaceMember) : List Port × List Port :=
  members.foldl portsStep ([], [])

/-- `parseNodeFile` (lines 112-161): for every interface declaration whose
name ends with `Node`, build a `NodeDef` from its JSDoc first line, its
`inputs`/`outputs` members and the alias table. -/
def parseNodeFile (stmts : List NsStatement) : List NodeDef :=
  let typeExports := buildTypeExports stmts
  stmts.filterMap fun s =>
    match s with
    | NsStatement.interfaceDecl interfaceName jsDocComment members =>
      if strEndsWith interfaceName "Node" then
        some { name := resolveExportName typeExports interfaceName,
               interfaceName := interfaceName,
               description := firstLineTrimmed (jsDocComment.getD ""),
               inputs := (portsOfMembers members).1,
               outputs := (portsOfMembers members).2 }
      else none
    | _ => none

/-! ## The export manifest (`parseIndexExports`, lines 45-81) -/

/-- An export clause of an `export ... from '...'` statement. -/
inductive ExportClause where
  | namedExports (names : List String)
  | namespaceExport (name : String)
deriving Repr, DecidableEq

/-- A top-level statement of `index.ts`, at the granularity the script
inspects: export declarations carry their optional clause and optional module
specifier text. -/
inductive IndexStatement where
  | exportDecl (clause : Option ExportClause) (moduleSpecifier : Option String)
  | otherIndex
deriving Repr, DecidableEq

/-- The parsed manifest: top-level named exports (a `Set`) and the ordered
namespace → file-path `Map`. -/
structure ExportsInfo where
  topLevel : List String
  namespaces : List (String × String)
deriving Repr, DecidableEq

/-- `join(TLANG_SRC_DIR, moduleSpecifier + '.ts')` (line 73), modelled as
plain path concatenation against the fixed source directory. -/
def resolveModulePath (moduleSpecifier : String) : String :=
  "../../src/" ++ moduleSpecifier ++ ".ts"

/-- `parseIndexExports`: visit export declarations that have a module
specifier; named-export clauses feed the top-level set, namespace re-exports
feed the namespace map. -/
def parseIndexExports (stmts : List IndexStatement) : ExportsInfo :=
  stmts.foldl
    (fun acc s =>
      match s with
      | IndexStatement.exportDecl (some clause) (some moduleSpecifier) =>
        match clause with
        | ExportClause.namedExports names =>
          { acc with topLevel := names.foldl setAdd acc.topLevel }
        | ExportClause.namespaceExport namespaceName =>
          { acc with
            namespaces := mapSet acc.namespaces namespaceName (resolveModulePath moduleSpecifier) }
      | _ => acc)
    { topLevel := [], namespaces := [] }

/-! ## Registry assembly (`generateRegistry`, lines 241-333) -/

/-- One entry of `allNodes` (lines 255-262): a parsed node tagged with its
namespace, full id and tlang type. -/
structure RegNode extends NodeDef where
  category : String
  fullId : String
  tlangType : String
deriving Repr, DecidableEq

/-- The `CATEGORY_COLORS` table (lines 28-40). -/
def CATEGORY_COLORS : List (String × String) :=
  [("Numbers", "#3b82f6"), ("Strings", "#10b981"), ("Objects", "#f59e0b"),
   ("Booleans", "#8b5cf6"), ("Tuples", "#ec4899"), ("Unions", "#ec4899"),
   ("Deep", "#06b6d4"), ("Basic", "#f59e0b"), ("Conditional", "#6366f1"),
   ("Functions", "#14b8a6"), ("Match", "#f97316")]

/-- `CATEGORY_COLORS[node.category] || '#6b7280'` (line 269). -/
def categoryColor (category : String) : String :=
  match CATEGORY_COLORS.find? (fun p => p.1 == category) with
  | some p => p.2
  | none => "#6b7280"

/-- The nodes one namespace contributes to `allNodes` (lines 253-262). -/
def regNodesOf (namespaceName : String) (stmts : List NsStatement) : List RegNode :=
  (parseNodeFile stmts).map fun node =>
    { toNodeDef := node,
      category := namespaceName,
      fullId := namespaceName ++ "." ++ node.name,
      tlangType := namespaceName ++ "." ++ node.name }

/-- The description text interpolated into a registry entry (line 275):
`node.description || node.name + ' operation'` — the empty string is falsy,
so it is replaced by the fallback. -/
def emittedDescription (node : RegNode) : String :=
  if node.description == "" then node.name ++ " operation" else node.description

/-- JS boolean-to-string interpolation. -/
def boolStr : Bool → String
  | true => "true"
  | false => "false"

/-- The serialized form of one port (lines 277 and 280). -/
def portStr (p : Port) : String :=
  "      \x7b id: '" ++ p.id ++ "', label: '" ++ p.label ++ "', type: '" ++ p.type
    ++ "', required: " ++ boolStr p.required ++ " \x7d"

/-- The serialized form of one registry entry (lines 271-284). -/
def entryStr (node : RegNode) : String :=
  "  '" ++ node.fullId ++ "': \x7b\n    id: '" ++ node.fullId
    ++ "',\n    name: '" ++ node.name
    ++ "',\n    category: '" ++ node.category
    ++ "',\n    description: '" ++ emittedDescription node
    ++ "',\n    inputs: [\n" ++ String.intercalate ",\n" (node.inputs.map portStr)
    ++ "\n    ],\n    outputs: [\n" ++ String.intercalate ",\n" (node.outputs.map portStr)
    ++ "\n    ],\n    tlangType: '" ++ node.tlangType
    ++ "',\n    style: \x7b color: '" ++ categoryColor node.category ++ "' \x7d\n  \x7d"

/-- `registryEntries` (lines 268-285): entries in `allNodes` order. -/
def registryEntries (allNodes : List RegNode) : String :=
  String.intercalate ",\n\n" (allNodes.map entryStr)

/-- The fixed text of the artifact before the interpolated timestamp
(lines 287-294). -/
def codePreTs : String :=
  "/**\n * Central registry for all tlang node types\n *\n"
    ++ " * AUTO-GENERATED by scripts/generate-registry.js\n"
    ++ " * DO NOT EDIT MANUALLY - it will be overwritten\n *\n"
    ++ " * Single Source of Truth: tlang/src/\n * Generated at: "

/-- The text of the artifact after the timestamp (lines 295-328): the fixed
middle, the serialized entries, and the fixed query helpers. -/
def codePostTs (allNodes : List RegNode) : String :=
  "\n */\n\n"
    ++ "import type \x7b TLangNodeMetadata \x7d from '../../types/node'\n\n"
    ++ "/**\n * Complete registry of all tlang nodes\n */\n"
    ++ "export const nodeRegistry: Record<string, TLangNodeMetadata> = \x7b\n"
    ++ registryEntries allNodes
    ++ "\n\x7d\n\n"
    ++ "/**\n * Get all nodes for a specific category\n */\n"
    ++ "export function getNodesByCategory(category: string): TLangNodeMetadata[] \x7b\n"
    ++ "  return Object.values(nodeRegistry).filter(node => node.category === category)\n\x7d\n\n"
    ++ "/**\n * Get all unique categories\n */\n"
    ++ "export function getAllCategories(): string[] \x7b\n"
    ++ "  const categories = new Set<string>()\n"
    ++ "  Object.values(nodeRegistry).forEach(node => categories.add(node.category))\n"
    ++ "  return Array.from(categories).sort()\n\x7d\n\n"
    ++ "/**\n * Get a node by its ID\n */\n"
    ++ "export function getNodeById(id: string): TLangNodeMetadata | undefined \x7b\n"
    ++ "  return nodeRegistry[id]\n\x7d\n"

/-- `registryCode` (lines 287-328): the full artifact text; the generation
timestamp is interpolated at exactly one position. -/
def registryCode (allNodes : List RegNode) (timestamp : String) : String :=
  codePreTs ++ timestamp ++ codePostTs allNodes

/-- The serialized artifact for a fixed node list, as a function of the
timestamp interpolation position (used to state idempotence). -/
def renderAt (timestamp : String) (allNodes : List RegNode) : String :=
  codePreTs ++ timestamp ++ codePostTs allNodes

/-! ## The pipeline driver over an explicit file system -/

/-- The files the run can read: the manifest (`index.ts`) and the namespace
files, both already at AST granularity.  `none` models a missing or
unreadable file, for which `readFileSync` throws. -/
structure FileSystem where
  indexFile : Option (List IndexStatement)
  files : String → Option (List NsStatement)

/-- The namespace loop of `generateRegistry` (lines 251-265): read and parse
each namespace file in manifest order, appending its nodes; a missing file
makes `readFileSync` throw, aborting the whole run. -/
def collectAllNodes (fs : FileSystem) : List (String × String) → Except String (List RegNode)
  | [] => Except.ok []
  | (namespaceName, filePath) :: rest =>
    match fs.files filePath with
    | none => Except.error ("ENOENT: no such file or directory, open " ++ filePath)
    | some stmts =>
      match collectAllNodes fs rest with
      | Except.ok more => Except.ok (regNodesOf namespaceName stmts ++ more)
      | Except.error e => Except.error e

/-- `allNodes` of a run: parse the manifest, then every namespace file. -/
def pipelineNodes (fs : FileSystem) : Except String (List RegNode) :=
  match fs.indexFile with
  | none => Except.error "ENOENT: no such file or directory, open index.ts"
  | some idxStmts => collectAllNodes fs (parseIndexExports idxStmts).namespaces

/-- A whole run of `generateRegistry` (lines 241-341): on success the
artifact text is produced (and written as the final step); any read failure
propagates before anything is written. -/
def generateRegistry (fs : FileSystem) (timestamp : String) : Except String String :=
  match pipelineNodes fs with
  | Except.error e => Except.error e
  | Except.ok allNodes => Except.ok (registryCode allNodes timestamp)

/-- What a run leaves at the output path: the full artifact on success,
nothing on failure (`writeFileSync` is the last statement of the run). -/
def writtenArtifact (fs : FileSystem) (timestamp : String) : Option String :=
  (generateRegistry fs timestamp).toOption

/-- The process exit status (lines 336-341): `0` on success, `1` via
`process.exit(1)` when any error was thrown. -/
def exitCode (fs : FileSystem) (timestamp : String) : Nat :=
  match generateRegistry fs timestamp with
  | Except.ok _ => 0
  | Except.error _ => 1

/-! ## Concrete fixtures

Small source trees used to instantiate the theorems below. -/

/-- The `Numbers` namespace file of the structural example: an `AddNode`
interface with documented alias `Add`, two number inputs and one output. -/
def demoStmts : List NsStatement :=
  [NsStatement.typeAlias true "Add" "AddNode",
   NsStatement.interfaceDecl "AddNode" (some "Add two numbers")
     [IfaceMember.propertySignature "inputs"
        (some (TypeNode.typeLiteral
          [TypeMember.propertySignature "a" (some "number"),
           TypeMember.propertySignature "b" (some "number")])),
      IfaceMember.propertySignature "outputs"
        (some (TypeNode.typeLiteral
          [TypeMember.propertySignature "out" (some "number")]))]]

/-- The registry node `demoStmts` produces under namespace `Numbers`. -/
def demoRegNode : RegNode :=
  { name := "Add",
    interfaceName := "AddNode",
    description := "Add two numbers",
    inputs := [⟨"a", "A", "number", true⟩, ⟨"b", "B", "number", true⟩],
    outputs := [⟨"out", "Out", "number", false⟩],
    category := "Numbers",
    fullId := "Numbers.Add",
    tlangType := "Numbers.Add" }

/-- A healthy source tree: `index.ts` re-exports `Numbers`, whose file is
`demoStmts`. -/
def fsDemo : FileSystem :=
  { indexFile := some
      [IndexStatement.exportDecl (some (ExportClause.namespaceExport "Numbers")) (some "numbers")],
    files := fun p => if p == "../../src/numbers.ts" then some demoStmts else none }

/-- A source tree whose `Numbers` file declares `interface AddNode` twice
(legal TypeScript: interface declarations merge), so both declarations
resolve to exported name `Add` and full id `Numbers.Add`. -/
def fsCollide : FileSystem :=
  { indexFile := some
      [IndexStatement.exportDecl (some (ExportClause.namespaceExport "Numbers")) (some "numbers")],
    files := fun p =>
      if p == "../../src/numbers.ts" then
        some [NsStatement.interfaceDecl "AddNode" none [],
              NsStatement.interfaceDecl "AddNode" none []]
      else none }

/-- A source tree whose manifest references a namespace file that does not
exist. -/
def fsMissing : FileSystem :=
  { indexFile := some
      [IndexStatement.exportDecl (some (ExportClause.namespaceExport "Ghost")) (some "ghost")],
    files := fun _ => none }

/-! ## Helper lemmas -/

/-- Every port any tier of `extractPorts` emits carries
`required = (role == input)`. -/
theorem extractPorts_required (t : TypeNode) (role : Role) :
    ∀ p ∈ extractPorts t role, p.required = (role == Role.input) := by
  induction t with
  | typeLiteral members =>
    intro p hp
    simp only [extractPorts, List.mem_filterMap] at hp
    obtain ⟨m, _, hm⟩ := hp
    cases m with
    | propertySignature n ty =>
      simp only [Option.some.injEq] at hm
      rw [← hm]
    | otherMember => simp at hm
  | conditionalType ck ex tt ff iht ihf =>
    intro p hp
    exact iht p hp
  | otherType text =>
    intro p hp
    unfold extractPorts at hp
    split at hp
    · simp only [List.mem_filterMap] at hp
      obtain ⟨w, _, hw⟩ := hp
      split at hw
      · simp only [Option.some.injEq] at hw
        rw [← hw]
      · simp at hw
    · simp at hp

/-- Every port the tier-3 heuristic emits has type category `any`. -/
theorem extractPorts_otherType_any (text : String) (role : Role) :
    ∀ p ∈ extractPorts (TypeNode.otherType text) role, p.type = "any" := by
  intro p hp
  unfold extractPorts at hp
  split at hp
  · simp only [List.mem_filterMap] at hp
    obtain ⟨w, _, hw⟩ := hp
    split at hw
    · simp only [Option.some.injEq] at hw
      rw [← hw]
    · simp at hw
  · simp at hp

/-- The member fold preserves the required-flag invariants on both port
lists. -/
theorem portsOfMembers_required (members : List IfaceMember) :
    (∀ p ∈ (portsOfMembers members).1, p.required = true) ∧
    (∀ p ∈ (portsOfMembers members).2, p.required = false) := by
  have step :
      ∀ (acc : List Port × List Port) (ms : List IfaceMember),
        (∀ p ∈ acc.1, p.required = true) → (∀ p ∈ acc.2, p.required = false) →
        (∀ p ∈ (ms.foldl portsStep acc).1, p.required = true) ∧
        (∀ p ∈ (ms.foldl portsStep acc).2, p.required = false) := by
    intro acc ms
    induction ms generalizing acc with
    | nil => exact fun h1 h2 => ⟨h1, h2⟩
    | cons m rest ih =>
      intro h1 h2
      simp only [List.foldl_cons]
      apply ih
      · intro p hp
        unfold portsStep at hp
        split at hp
        · split at hp
          · exact extractPorts_required _ Role.input p hp
          · split at hp
            · exact h1 p hp
            · exact h1 p hp
        · exact h1 p hp
      · intro p hp
        unfold portsStep at hp
        split at hp
        · split at hp
          · exact h2 p hp
          · split at hp
            · exact extractPorts_required _ Role.output p hp
            · exact h2 p hp
        · exact h2 p hp
  exact step ([], []) members (by simp) (by simp)

/-- Provenance of a parsed node: it comes from an interface declaration in
the file whose name ends with `Node`, and its fields are exactly what
`parseNodeFile` computes from that declaration. -/
theorem parseNodeFile_mem (stmts : List NsStatement) (node : NodeDef)
    (h : node ∈ parseNodeFile stmts) :
    ∃ interfaceName jsDocComment members,
      NsStatement.interfaceDecl interfaceName jsDocComment members ∈ stmts ∧
      strEndsWith interfaceName "Node" = true ∧
      node = { name := resolveExportName (buildTypeExports stmts) interfaceName,
               interfaceName := interfaceName,
               description := firstLineTrimmed (jsDocComment.getD ""),
               inputs := (portsOfMembers members).1,
               outputs := (portsOfMembers members).2 } := by
  simp only [parseNodeFile, List.mem_filterMap] at h
  obtain ⟨s, hs, hmap⟩ := h
  cases s with
  | typeAlias e n t => simp at hmap
  | otherNs => simp at hmap
  | interfaceDecl interfaceName jsDocComment members =>
    by_cases he : strEndsWith interfaceName "Node" = true
    · refine ⟨interfaceName, jsDocComment, members, hs, he, ?_⟩
      simp only [he, if_true, Option.some.injEq] at hmap
      exact hmap.symm
    · simp only [Bool.not_eq_true] at he
      simp [he] at hmap

/-- Provenance of a registry node: it wraps a parsed node of its namespace
file, and its `fullId` and `tlangType` are `namespace.name`. -/
theorem regNodesOf_mem (namespaceName : String) (stmts : List NsStatement)
    (rn : RegNode) (h : rn ∈ regNodesOf namespaceName stmts) :
    ∃ node, node ∈ parseNodeFile stmts ∧
      rn = { toNodeDef := node,
             category := namespaceName,
             fullId := namespaceName ++ "." ++ node.name,
             tlangType := namespaceName ++ "." ++ node.name } := by
  simp only [regNodesOf, List.mem_map] at h
  obtain ⟨node, hmem, hrn⟩ := h
  exact ⟨node, hmem, hrn.symm⟩

/-! ## Claim theorems -/

/-- **C5**: every Port produced by the pipeline (in every tier of port
extraction) satisfies the required-flag law: a port in an `inputs` list has
`required = true`, a port in an `outputs` list has `required = false`, and at
the extractor level `required` equals `(role == input)` universally. -/
theorem required_flag_law (namespaceName : String) (stmts : List NsStatement)
    (rn : RegNode) (h : rn ∈ regNodesOf namespaceName stmts) :
    ((∀ p ∈ rn.inputs, p.required = true) ∧ (∀ p ∈ rn.outputs, p.required = false)) ∧
    ∀ (t : TypeNode) (role : Role), ∀ p ∈ extractPorts t role,
      p.required = (role == Role.input) := by
  constructor
  · obtain ⟨node, hmem, hrn⟩ := regNodesOf_mem namespaceName stmts rn h
    obtain ⟨interfaceName, jsDocComment, members, _, _, hnode⟩ :=
      parseNodeFile_mem stmts node hmem
    have h1 : rn.inputs = (portsOfMembers members).1 := by rw [hrn, hnode]
    have h2 : rn.outputs = (portsOfMembers members).2 := by rw [hrn, hnode]
    rw [h1, h2]
    exact portsOfMembers_required members
  · exact fun t role => extractPorts_required t role

/-- Witness for `required_flag_law` at the concrete `Numbers.Add` node. -/
theorem required_flag_law_witness :
    (Port.mk "a" "A" "number" true).required = true ∧
    (Port.mk "out" "Out" "number" false).required = false :=
  ⟨((required_flag_law "Numbers" demoStmts demoRegNode (by decide)).1).1
      (Port.mk "a" "A" "number" true) (by decide),
   ((required_flag_law "Numbers" demoStmts demoRegNode (by decide)).1).2
      (Port.mk "out" "Out" "number" false) (by decide)⟩

/-- The conditional-type example of §8: `T extends string ? (value: string) : never`
as a type node. -/
def condExample : TypeNode :=
  TypeNode.conditionalType "T" "string"
    (TypeNode.typeLiteral [TypeMember.propertySignature "value" (some "string")])
    (TypeNode.otherType "never")

/-- **C6**: a conditional type extracts exactly the ports of its true branch
with the same role (the false branch contributes nothing), and the §8 example
yields exactly one required string input `value`. -/
theorem conditional_type_true_branch :
    (∀ (checkText extendsText : String) (trueType falseType : TypeNode) (role : Role),
      extractPorts (TypeNode.conditionalType checkText extendsText trueType falseType) role =
        extractPorts trueType role) ∧
    extractPorts condExample Role.input = [Port.mk "value" "Value" "string" true] :=
  ⟨fun _ _ _ _ _ => rfl, by decide⟩

/-- The §4.4 classifier contract stated from the spec's words: an ordered
table of trigger-substring sets with a category each; the first rule with
some matching trigger wins and the default is `any`. -/
def specTypeRules : List (List String × String) :=
  [(["number"], "number"), (["string"], "string"), (["boolean"], "boolean"),
   (["[]", "Array"], "array"), (["\x7b", "Record", "object"], "object")]

/-- First-match classification over `specTypeRules` (spec-side definition,
to be compared with `simplifyType`). -/
def classifyFirstMatch (typeText : String) : String :=
  match specTypeRules.find? (fun r => r.1.any (fun pat => includes typeText pat)) with
  | some r => r.2
  | none => "any"

/-- **C7**: `simplifyType` is a pure total function agreeing on every string
with the spec's ordered first-match-wins substring rule table. -/
theorem simplifyType_first_match_order :
    ∀ typeText, simplifyType typeText = classifyFirstMatch typeText := by
  intro s
  cases h1 : includes s "number" <;> cases h2 : includes s "string" <;>
    cases h3 : includes s "boolean" <;> cases h4 : includes s "[]" <;>
    cases h5 : includes s "Array" <;> cases h6 : includes s "\x7b" <;>
    cases h7 : includes s "Record" <;> cases h8 : includes s "object" <;>
    simp [simplifyType, classifyFirstMatch, specTypeRules, List.find?, List.any,
      h1, h2, h3, h4, h5, h6, h7, h8]

/-- §4.2's name-resolution rule stated from the spec's words: the first
alias-table entry (`List.find?` in table order) whose referenced text is the
interface name or a generic instantiation of it; else the stripped name. -/
def resolveExportNameSpec (typeExports : List (String × String)) (interfaceName : String) : String :=
  match typeExports.find?
      (fun e => e.2 == interfaceName || strStartsWith e.2 (interfaceName ++ "<")) with
  | some e => e.1
  | none => stripNodeSuffix interfaceName

/-- **C8**: the break-on-first-match alias loop computes exactly the
first-match-in-table-order rule with `Node`-stripping fallback; every
recognized node interface's exported name is resolved by that rule against
the file's retained alias table; and the §8 fallback example `SubtractNode`
with no matching alias yields `Subtract`. -/
theorem exportedName_resolution :
    (∀ typeExports interfaceName,
      resolveExportName typeExports interfaceName =
        resolveExportNameSpec typeExports interfaceName) ∧
    (∀ (stmts : List NsStatement) (node : NodeDef), node ∈ parseNodeFile stmts →
      node.name = resolveExportNameSpec (buildTypeExports stmts) node.interfaceName) ∧
    resolveExportName [] "SubtractNode" = "Subtract" := by
  have loopSpec : ∀ typeExports interfaceName,
      resolveExportName typeExports interfaceName =
        resolveExportNameSpec typeExports interfaceName := by
    intro te iname
    induction te with
    | nil => rfl
    | cons e rest ih =>
      obtain ⟨expName, expType⟩ := e
      by_cases h : (expType == iname || strStartsWith expType (iname ++ "<")) = true
      · simp [resolveExportName, resolveExportNameSpec, List.find?, h]
      · simp only [Bool.not_eq_true] at h
        simp [resolveExportName, resolveExportNameSpec, List.find?, h, ih,
          Bool.or_eq_true] at *
  refine ⟨loopSpec, ?_, by decide⟩
  intro stmts node hmem
  obtain ⟨interfaceName, jsDocComment, members, _, _, hnode⟩ :=
    parseNodeFile_mem stmts node hmem
  rw [hnode]
  exact loopSpec (buildTypeExports stmts) interfaceName

/-- Witness for `exportedName_resolution` at the `AddNode` interface of the
demo file, whose alias `Add` matches in table order. -/
theorem exportedName_resolution_witness :
    (NodeDef.mk "Add" "AddNode" "Add two numbers"
        [Port.mk "a" "A" "number" true, Port.mk "b" "B" "number" true]
        [Port.mk "out" "Out" "number" false]).name =
      resolveExportNameSpec (buildTypeExports demoStmts)
        (NodeDef.mk "Add" "AddNode" "Add two numbers"
          [Port.mk "a" "A" "number" true, Port.mk "b" "B" "number" true]
          [Port.mk "out" "Out" "number" false]).interfaceName :=
  exportedName_resolution.2.1 demoStmts
    (NodeDef.mk "Add" "AddNode" "Add two numbers"
      [Port.mk "a" "A" "number" true, Port.mk "b" "B" "number" true]
      [Port.mk "out" "Out" "number" false]) (by decide)

/-- **C9**: in the heuristic fallback tier every extracted port has type
category `any` (whatever its declared type) and `required = (role == input)`;
and when the expression's text has no `?`-prefixed brace-delimited object
pattern, the extractor returns the empty list rather than failing. -/
theorem heuristic_tier_behavior (text : String) (role : Role) :
    (∀ p ∈ extractPorts (TypeNode.otherType text) role,
        p.type = "any" ∧ p.required = (role == Role.input)) ∧
    (findQuestionBrace text.data = none →
      extractPorts (TypeNode.otherType text) role = []) := by
  constructor
  · intro p hp
    exact ⟨extractPorts_otherType_any text role p hp,
           extractPorts_required (TypeNode.otherType text) role p hp⟩
  · intro h
    unfold extractPorts
    rw [h]

/-- Witness for `heuristic_tier_behavior`: the declared type `Value` is
reported as `any` on a complex expression, and `number[]` (no pattern)
yields no ports. -/
theorem heuristic_tier_behavior_witness :
    ((Port.mk "out" "Out" "any" true).type = "any" ∧
      (Port.mk "out" "Out" "any" true).required = (Role.input == Role.input)) ∧
    extractPorts (TypeNode.otherType "number[]") Role.input = [] :=
  ⟨(heuristic_tier_behavior "Complex<T> extends U ? \x7b out: Value \x7d : never" Role.input).1
      (Port.mk "out" "Out" "any" true) (by decide),
   (heuristic_tier_behavior "number[]" Role.input).2 (by decide)⟩

/-- A tier-3 expression whose braces contain a `readonly :` token next to a
genuine property token. -/
def readonlyExample : String :=
  "T extends U ? \x7b readonly : string; a: number \x7d : never"

/-- **C10**: the tier-3 heuristic never emits a port whose id is `readonly`;
on `readonlyExample` the `readonly :` token inside the braces is dropped and
only the `a` port is returned. -/
theorem heuristic_drops_readonly (text : String) (role : Role) :
    (∀ p ∈ extractPorts (TypeNode.otherType text) role, ¬ p.id = "readonly") ∧
    extractPorts (TypeNode.otherType readonlyExample) Role.input =
      [Port.mk "a" "A" "any" true] := by
  constructor
  · intro p hp
    unfold extractPorts at hp
    split at hp
    · simp only [List.mem_filterMap] at hp
      obtain ⟨w, _, hw⟩ := hp
      by_cases hc : (String.mk w != "" && String.mk w != "readonly") = true
      · rw [if_pos hc] at hw
        simp only [Option.some.injEq] at hw
        have hne : (String.mk w != "readonly") = true := by
          simp only [Bool.and_eq_true] at hc
          exact hc.2
        rw [← hw]
        simpa using hne
      · rw [if_neg hc] at hw
        simp at hw
    · simp at hp
  · decide

/-- Witness for `heuristic_drops_readonly` at the emitted `a` port. -/
theorem heuristic_drops_readonly_witness :
    ¬ (Port.mk "a" "A" "any" true).id = "readonly" :=
  (heuristic_drops_readonly readonlyExample Role.input).1
    (Port.mk "a" "A" "any" true) (by decide)

/-- **C1** (evidence): on a source tree whose `Numbers` file declares
`interface AddNode` twice, the pipeline emits two registry entries with the
identical key `Numbers.Add` and finishes with exit status 0 — no check
surfaces the collision, and loading the emitted object literal with its
duplicate keys silently keeps only the last entry. -/
theorem fullId_collision_not_surfaced :
    (pipelineNodes fsCollide).map (fun nodes => nodes.map RegNode.fullId) =
      Except.ok ["Numbers.Add", "Numbers.Add"] ∧
    ¬ (["Numbers.Add", "Numbers.Add"] : List String).Nodup ∧
    exitCode fsCollide "2024-01-01T00:00:00.000Z" = 0 :=
  ⟨rfl, by decide, rfl⟩

/-- The `Numbers.Foo` registry node of an undocumented `interface FooNode`. -/
def fooRegNode : RegNode :=
  { name := "Foo", interfaceName := "FooNode", description := "",
    inputs := [], outputs := [],
    category := "Numbers", fullId := "Numbers.Foo", tlangType := "Numbers.Foo" }

/-- **C2** (counterexample): a recognized node interface with no
documentation block is emitted with description `Foo operation`, not the
empty string — refuting the claim that the emitted description is empty when
documentation is absent. -/
theorem description_fallback_counterexample :
    regNodesOf "Numbers" [NsStatement.interfaceDecl "FooNode" none []] = [fooRegNode] ∧
    emittedDescription fooRegNode = "Foo operation" ∧
    ¬ emittedDescription fooRegNode = "" :=
  ⟨by decide, by decide, by decide⟩

/-- **C2** (amended): every emitted registry entry's description is the first
line of its interface's leading documentation, trimmed, whenever that line is
non-empty; when the documentation is absent or its first line trims to the
empty string, the emitted description is `<exportedName> operation` instead. -/
theorem description_emission (namespaceName : String) (stmts : List NsStatement)
    (rn : RegNode) (h : rn ∈ regNodesOf namespaceName stmts) :
    ∃ interfaceName jsDocComment members,
      NsStatement.interfaceDecl interfaceName jsDocComment members ∈ stmts ∧
      rn.description = firstLineTrimmed (jsDocComment.getD "") ∧
      emittedDescription rn =
        (if firstLineTrimmed (jsDocComment.getD "") == "" then rn.name ++ " operation"
         else firstLineTrimmed (jsDocComment.getD "")) := by
  obtain ⟨node, hmem, hrn⟩ := regNodesOf_mem namespaceName stmts rn h
  obtain ⟨interfaceName, jsDocComment, members, hstmt, _, hnode⟩ :=
    parseNodeFile_mem stmts node hmem
  refine ⟨interfaceName, jsDocComment, members, hstmt, ?_, ?_⟩
  · rw [hrn, hnode]
  · have hdesc : rn.description = firstLineTrimmed (jsDocComment.getD "") := by
      rw [hrn, hnode]
    unfold emittedDescription
    rw [hdesc]

/-- Witness for `description_emission` at the documented `Numbers.Add` node. -/
theorem description_emission_witness :
    ∃ interfaceName jsDocComment members,
      NsStatement.interfaceDecl interfaceName jsDocComment members ∈ demoStmts ∧
      demoRegNode.description = firstLineTrimmed (jsDocComment.getD "") ∧
      emittedDescription demoRegNode =
        (if firstLineTrimmed (jsDocComment.getD "") == "" then demoRegNode.name ++ " operation"
         else firstLineTrimmed (jsDocComment.getD "")) :=
  description_emission "Numbers" demoStmts demoRegNode (by decide)

/-- **C3**: every successful run's artifact is the fixed text `codePreTs`,
then the run's timestamp, then a suffix `codePostTs` determined solely by the
parsed source tree — so two runs over an identical tree produce byte-identical
artifacts except for the timestamp field, the only point of non-determinism. -/
theorem registry_deterministic_modulo_timestamp (fs : FileSystem)
    (ts1 ts2 out1 out2 : String)
    (h1 : generateRegistry fs ts1 = Except.ok out1)
    (h2 : generateRegistry fs ts2 = Except.ok out2) :
    (pipelineNodes fs).map (renderAt ts1) = Except.ok out1 ∧
    (pipelineNodes fs).map (renderAt ts2) = Except.ok out2 := by
  unfold generateRegistry at h1 h2
  cases hp : pipelineNodes fs with
  | error e =>
    rw [hp] at h1
    exact absurd h1 (by simp)
  | ok allNodes =>
    rw [hp] at h1 h2
    simp only [Except.ok.injEq] at h1 h2
    subst h1
    subst h2
    exact ⟨rfl, rfl⟩

/-- Witness for `registry_deterministic_modulo_timestamp`: two runs over the
demo tree with different timestamps. -/
theorem registry_deterministic_modulo_timestamp_witness :
    (pipelineNodes fsDemo).map (renderAt "2024-01-01T00:00:00.000Z") =
      Except.ok (registryCode [demoRegNode] "2024-01-01T00:00:00.000Z") ∧
    (pipelineNodes fsDemo).map (renderAt "2025-06-30T12:00:00.000Z") =
      Except.ok (registryCode [demoRegNode] "2025-06-30T12:00:00.000Z") :=
  registry_deterministic_modulo_timestamp fsDemo
    "2024-01-01T00:00:00.000Z" "2025-06-30T12:00:00.000Z"
    (registryCode [demoRegNode] "2024-01-01T00:00:00.000Z")
    (registryCode [demoRegNode] "2025-06-30T12:00:00.000Z") rfl rfl

/-- `isOk` computes on `ok`. -/
theorem exceptIsOk_ok {ε α : Type} (a : α) : (Except.ok a : Except ε α).isOk = true := rfl

/-- `isOk` computes on `error`. -/
theorem exceptIsOk_error {ε α : Type} (e : ε) : (Except.error e : Except ε α).isOk = false := rfl

/-- A run whose namespace list contains a file the file system cannot read
never produces nodes. -/
theorem collectAllNodes_missing (fs : FileSystem) (l : List (String × String))
    (h : ∃ pr ∈ l, fs.files pr.2 = none) :
    (collectAllNodes fs l).isOk = false := by
  induction l with
  | nil =>
    obtain ⟨pr, hpr, _⟩ := h
    simp at hpr
  | cons hd tl ih =>
    obtain ⟨pr, hpr, hnone⟩ := h
    obtain ⟨namespaceName, filePath⟩ := hd
    simp only [collectAllNodes]
    cases hf : fs.files filePath with
    | none => rfl
    | some stmts =>
      have hpr' : pr ∈ tl := by
        rcases List.mem_cons.mp hpr with h1 | h1
        · rw [h1] at hnone
          simp only at hnone
          rw [hf] at hnone
          cases hnone
        · exact h1
      have herr := ih ⟨pr, hpr', hnone⟩
      cases hr : collectAllNodes fs tl with
      | ok more =>
        rw [hr, exceptIsOk_ok] at herr
        cases herr
      | error e => rfl

/-- **C4**: when the manifest is missing/unreadable, or the manifest
references a namespace file that is missing/unreadable, the run aborts (with
the thrown diagnostic as its error), exits with non-zero status 1, and writes
no artifact at all — `writeFileSync` is only reached on full success. -/
theorem fatal_missing_file (fs : FileSystem) (ts : String)
    (h : fs.indexFile = none ∨
      ∃ idxStmts namespaceName filePath,
        fs.indexFile = some idxStmts ∧
        (namespaceName, filePath) ∈ (parseIndexExports idxStmts).namespaces ∧
        fs.files filePath = none) :
    (generateRegistry fs ts).isOk = false ∧
    writtenArtifact fs ts = none ∧
    exitCode fs ts = 1 := by
  have herr : (pipelineNodes fs).isOk = false := by
    rcases h with hidx | ⟨idxStmts, namespaceName, filePath, hidx, hmem, hnone⟩
    · simp [pipelineNodes, hidx, exceptIsOk_error]
    · rw [pipelineNodes, hidx]
      exact collectAllNodes_missing fs _ ⟨(namespaceName, filePath), hmem, hnone⟩
  cases hp : pipelineNodes fs with
  | ok allNodes =>
    rw [hp, exceptIsOk_ok] at herr
    cases herr
  | error e =>
    refine ⟨?_, ?_, ?_⟩ <;>
      simp [generateRegistry, writtenArtifact, exitCode, hp, Except.toOption,
        exceptIsOk_error]

/-- Witness for `fatal_missing_file`: the manifest of `fsMissing` references
`ghost.ts`, which does not exist. -/
theorem fatal_missing_file_witness :
    (generateRegistry fsMissing "2024-01-01T00:00:00.000Z").isOk = false ∧
    writtenArtifact fsMissing "2024-01-01T00:00:00.000Z" = none ∧
    exitCode fsMissing "2024-01-01T00:00:00.000Z" = 1 :=
  fatal_missing_file fsMissing "2024-01-01T00:00:00.000Z"
    (Or.inr ⟨[IndexStatement.exportDecl
        (some (ExportClause.namespaceExport "Ghost")) (some "ghost")],
      "Ghost", "../../src/ghost.ts", rfl, by decide, rfl⟩)

end TlangRegistry
